import Mathlib

/-!
Verification of the `vl` CSV table renderer (`vl/formatter.py`).

The renderer is embedded shallowly: a `CSVViewer` record mirrors the state
built by `CSVViewer.__init__`, and each method of the class becomes a Lean
function over that record.  The row source is modelled as a `List` of rows
(each row a `List String`), the output sink as the list of strings printed,
in order.  Python strings are Lean `String`s; Python's `len` is `String.length`
(both count characters for the glyphs involved).  Python's truncating slice
`s[:k]` with a possibly negative `k` is modelled by `pySliceTo`.
-/

/-- A CSV row: an ordered list of text fields. -/
abbrev Row := List String

/-- Mirror of the `CSVViewer` instance state set up by `__init__`
(`output_stream` is modelled by returning the printed lines; `border_chars`
is recomputed from the immutable `border_style` at each use site, which is
observationally identical to the cached dict). -/
structure CSVViewer where
  delimiter : Char
  header : Bool
  min_col_width : Nat
  max_col_width : Option Nat
  border_style : String
  term_height : Nat
  term_width : Nat
  use_colors : Bool
  column_colors : List String
deriving DecidableEq, Repr

/-- The ANSI color table `CSVViewer.COLORS`. -/
def COLORS : List (String × String) :=
  [("reset", "\x1b[0m"),
   ("black", "\x1b[30m"), ("red", "\x1b[31m"), ("green", "\x1b[32m"),
   ("yellow", "\x1b[33m"), ("blue", "\x1b[34m"), ("magenta", "\x1b[35m"),
   ("cyan", "\x1b[36m"), ("white", "\x1b[37m"),
   ("bg_black", "\x1b[40m"), ("bg_red", "\x1b[41m"), ("bg_green", "\x1b[42m"),
   ("bg_yellow", "\x1b[43m"), ("bg_blue", "\x1b[44m"), ("bg_magenta", "\x1b[45m"),
   ("bg_cyan", "\x1b[46m"), ("bg_white", "\x1b[47m")]

/-- `CSVViewer.COLORS['reset']`. -/
def resetCode : String := "\x1b[0m"

/-- `CSVViewer.DEFAULT_COLUMN_COLORS`. -/
def DEFAULT_COLUMN_COLORS : List String := ["bg_cyan", "bg_white"]

/-- `column_colors or self.DEFAULT_COLUMN_COLORS` in `__init__`: Python `or`
replaces both `None` and the empty list by the default. -/
def initColumnColors : Option (List String) → List String
  | none => DEFAULT_COLUMN_COLORS
  | some [] => DEFAULT_COLUMN_COLORS
  | some (c :: cs) => c :: cs

/-- `CSVViewer.__init__`.  The terminal size probed by `_get_terminal_size`
is an environment input, passed here as the `term_height`/`term_width`
arguments. -/
def CSVViewer.init (delimiter : Char) (header : Bool) (min_col_width : Nat)
    (max_col_width : Option Nat) (border_style : String) (use_colors : Bool)
    (column_colors : Option (List String)) (term_height term_width : Nat) :
    CSVViewer :=
  { delimiter := delimiter
    header := header
    min_col_width := min_col_width
    max_col_width := max_col_width
    border_style := border_style
    term_height := term_height
    term_width := term_width
    use_colors := use_colors
    column_colors := initColumnColors column_colors }

/-- The eleven border glyphs of one style (each Python glyph string is a
single character). -/
structure BorderChars where
  h : Char
  v : Char
  tl : Char
  tr : Char
  bl : Char
  br : Char
  lc : Char
  rc : Char
  tc : Char
  bc : Char
  c : Char
deriving DecidableEq, Repr

/-- The `'simple'` glyph set. -/
def simpleStyle : BorderChars :=
  { h := '-', v := '|', tl := '+', tr := '+', bl := '+', br := '+',
    lc := '+', rc := '+', tc := '+', bc := '+', c := '+' }

/-- The `'grid'` glyph set. -/
def gridStyle : BorderChars :=
  { h := '─', v := '│', tl := '┌', tr := '┐', bl := '└', br := '┘',
    lc := '├', rc := '┤', tc := '┬', bc := '┴', c := '┼' }

/-- The `'minimal'` glyph set. -/
def minimalStyle : BorderChars :=
  { h := '─', v := ' ', tl := ' ', tr := ' ', bl := ' ', br := ' ',
    lc := ' ', rc := ' ', tc := ' ', bc := ' ', c := ' ' }

/-- The `'none'` glyph set. -/
def noneStyle : BorderChars :=
  { h := ' ', v := ' ', tl := ' ', tr := ' ', bl := ' ', br := ' ',
    lc := ' ', rc := ' ', tc := ' ', bc := ' ', c := ' ' }

/-- `_get_border_chars`: `styles.get(self.border_style, styles['simple'])`. -/
def borderChars (style : String) : BorderChars :=
  if style = "simple" then simpleStyle
  else if style = "grid" then gridStyle
  else if style = "minimal" then minimalStyle
  else if style = "none" then noneStyle
  else simpleStyle

/-- Python's `s[:k]` slice: a nonnegative bound keeps the first `k`
characters, a negative bound drops the last `|k|`. -/
def pySliceTo (s : String) (k : Int) : String :=
  if 0 ≤ k then String.mk (s.data.take k.toNat)
  else String.mk (s.data.take (s.length - k.natAbs))

/-- `_truncate_cell`. -/
def truncateCell (cell : String) (width : Nat) : String :=
  if width = 0 ∨ cell.length ≤ width then cell
  else pySliceTo cell ((width : Int) - 3) ++ "..."

/-- Python truthiness of `self.max_col_width` (`None` and `0` are falsy). -/
def maxTruthy : Option Nat → Bool
  | none => false
  | some w => w ≠ 0

/-- The truncation applied to a cell inside `_format_row`:
`if self.max_col_width and len(cell) > self.max_col_width:
cell = self._truncate_cell(cell, self.max_col_width)`. -/
def applyTrunc (v : CSVViewer) (cell : String) : String :=
  if maxTruthy v.max_col_width ∧ v.max_col_width.getD 0 < cell.length then
    truncateCell cell (v.max_col_width.getD 0)
  else cell

/-- `dict.get(color_name, "")` on `COLORS`. -/
def lookupColor (name : String) : String := (COLORS.lookup name).getD ""

/-- `_get_color`.  `self.column_colors` is never empty for a viewer built by
`__init__`; the empty case (where Python would raise `ZeroDivisionError` at
`col_index % len(...)`) is mapped to `""` here and treated faithfully by
`getColorRes` below. -/
def getColor (v : CSVViewer) (col_index : Nat) : String :=
  if v.use_colors = false then ""
  else if v.column_colors.length = 0 then ""
  else lookupColor (v.column_colors.getD (col_index % v.column_colors.length) "")

/-- Fallible model of `_get_color`: `none` marks the `ZeroDivisionError`
Python would raise in `col_index % len(self.column_colors)` on an empty
color list. -/
def getColorRes (use_colors : Bool) (colors : List String) (col_index : Nat) :
    Option String :=
  if use_colors = false then some ""
  else if colors.length = 0 then none
  else some (lookupColor (colors.getD (col_index % colors.length) ""))

/-- Python `str.ljust` / the `f"{cell:<{width}}"` format: pad with spaces on
the right, never truncate. -/
def ljust (s : String) (w : Nat) : String :=
  s ++ String.mk (List.replicate (w - s.length) ' ')

/-- One uncolored cell: `f" {cell:<{width}} "`. -/
def formatCellPlain (cell : String) (width : Nat) : String :=
  " " ++ ljust cell width ++ " "

/-- One colored cell: `f"{color_code} {cell:<{width}} {self.COLORS['reset']}"`. -/
def formatCellColored (v : CSVViewer) (i : Nat) (cell : String) (width : Nat) :
    String :=
  getColor v i ++ " " ++ ljust cell width ++ " " ++ resetCode

/-- The `cells` list built by the two loops of `_format_row`: the first
`min(len(row), len(col_widths))` positions render the (possibly truncated)
field, the remaining positions up to `len(col_widths)` render an empty
padded cell; fields beyond the plan are dropped. -/
def rowCells (v : CSVViewer) (i : Nat) : List String → List Nat → List String
  | _, [] => []
  | [], w :: ws =>
    (if v.use_colors then formatCellColored v i "" w else formatCellPlain "" w)
      :: rowCells v (i + 1) [] ws
  | cell :: cells, w :: ws =>
    (if v.use_colors then formatCellColored v i (applyTrunc v cell) w
     else formatCellPlain (applyTrunc v cell) w)
      :: rowCells v (i + 1) cells ws

/-- Python `sep.join(parts)`. -/
def joinSep (sep : String) : List String → String
  | [] => ""
  | [c] => c
  | c :: c2 :: cs => c ++ sep ++ joinSep sep (c2 :: cs)

/-- `_format_row`: cells joined and bounded by the style's vertical glyph. -/
def formatRow (v : CSVViewer) (row : Row) (col_widths : List Nat) : String :=
  let vStr := String.singleton (borderChars v.border_style).v
  vStr ++ joinSep vStr (rowCells v 0 row col_widths) ++ vStr

/-- A horizontal run `border_chars['h'] * n`. -/
def hRun (ch : Char) (n : Nat) : String := String.mk (List.replicate n ch)

/-- `_format_separator`. -/
def formatSeparator (v : CSVViewer) (col_widths : List Nat) (position : String) :
    String :=
  if v.border_style = "none" then ""
  else
    let bc := borderChars v.border_style
    let parts := col_widths.map (fun width => hRun bc.h (width + 2))
    if position = "top" then
      String.singleton bc.tl ++ joinSep (String.singleton bc.tc) parts
        ++ String.singleton bc.tr
    else if position = "middle" then
      String.singleton bc.lc ++ joinSep (String.singleton bc.c) parts
        ++ String.singleton bc.rc
    else if position = "bottom" then
      String.singleton bc.bl ++ joinSep (String.singleton bc.bc) parts
        ++ String.singleton bc.br
    else ""

/-- The width-update inner loop of `_calculate_initial_col_widths`:
`for j, cell in enumerate(row): ...` grows or maxes `col_widths`. -/
def updateWidths : List Nat → Row → List Nat
  | ws, [] => ws
  | [], cell :: cells => cell.length :: updateWidths [] cells
  | w :: ws, cell :: cells => max w cell.length :: updateWidths ws cells

/-- The preview loop of `_calculate_initial_col_widths`:
`for i, row in enumerate(reader): if i >= num_preview_rows: break; ...`.
Note: when the `break` fires, the row that triggered it has already been
pulled from the iterator but is neither buffered nor put back — the third
component is what remains of the source for the caller. -/
def previewLoop (numPreviewRows : Nat) (i : Nat) (reader : List Row)
    (col_widths : List Nat) (rows_buffer : List Row) :
    List Nat × List Row × List Row :=
  match reader with
  | [] => (col_widths, rows_buffer, [])
  | row :: rest =>
    if numPreviewRows ≤ i then (col_widths, rows_buffer, rest)
    else previewLoop numPreviewRows (i + 1) rest (updateWidths col_widths row)
      (rows_buffer ++ [row])

/-- `_calculate_initial_col_widths` (default `num_preview_rows=100`),
returning the width plan, the buffered preview rows, and the rows left in
the source after the call. -/
def calcInitialColWidths (v : CSVViewer) (reader : List Row) :
    List Nat × List Row × List Row :=
  let r := previewLoop 100 0 reader [] []
  let ws := r.1.map (fun w => max v.min_col_width w)
  let ws := if maxTruthy v.max_col_width then
      ws.map (fun w => min w (v.max_col_width.getD 0))
    else ws
  (ws, r.2.1, r.2.2)

/-- `view_csv`, with each `print(...)` call collected as one output string
in order (the summary keeps its leading blank line inside the string). -/
def viewCsv (v : CSVViewer) (reader : List Row) : List String :=
  let r := calcInitialColWidths v reader
  let col_widths := r.1
  let preview_rows := r.2.1
  let rest := r.2.2
  let topB := if v.border_style ≠ "none" then [formatSeparator v col_widths "top"]
    else []
  let headerOut :=
    if preview_rows ≠ [] ∧ v.header then
      formatRow v (preview_rows.headD []) col_widths
        :: (if v.border_style ≠ "none" then [formatSeparator v col_widths "middle"]
            else [])
    else []
  let start_idx := if preview_rows ≠ [] ∧ v.header then 1 else 0
  let previewOut := (preview_rows.drop start_idx).map
    (fun row => formatRow v row col_widths)
  let tailOut := rest.map (fun row => formatRow v row col_widths)
  let row_count := preview_rows.length + rest.length
  let botB := if v.border_style ≠ "none" then
      [formatSeparator v col_widths "bottom"]
    else []
  topB ++ headerOut ++ previewOut ++ tailOut ++ botB
    ++ ["\nTotal rows: " ++ toString row_count]

/-! ### Derived notions used in the statements -/

/-- A row fits a width plan when each rendered field (after the max-width
truncation `_format_row` applies) is no longer than its planned column
width; this is exactly the situation in which the `f"{cell:<{width}}"`
padding pads rather than overflows. -/
def rowFits (v : CSVViewer) : List String → List Nat → Bool
  | [], _ => true
  | _ :: _, [] => true
  | cell :: cells, w :: ws =>
    decide ((applyTrunc v cell).length ≤ w) && rowFits v cells ws

/-- The character positions, in a line rendered for a given width plan, of
the structural vertical border glyphs: position `0`, then after each cell of
width `wᵢ + 2` plus its following glyph. -/
def borderPositions : List Nat → List Nat
  | [] => [0, 1]
  | [w] => [0, w + 3]
  | w :: w2 :: ws => 0 :: (borderPositions (w2 :: ws)).map (· + (w + 3))

/-- The character list of a rendered line: a leading glyph, then each cell
followed by a glyph. -/
def lineChars (vc : Char) : List (List Char) → List Char
  | [] => [vc, vc]
  | [c] => vc :: (c ++ [vc])
  | c :: c2 :: cs => vc :: (c ++ lineChars vc (c2 :: cs))

/-- The common character length of data lines and separator lines rendered
for a width plan: `Σ(wᵢ+2)` cell characters, `n-1` inner glyphs, and the
two outer glyphs. -/
def rowRenderWidth (ws : List Nat) : Nat :=
  (ws.map (· + 2)).sum + (ws.length - 1) + 2

/-- The spec's total rendered width of a plan: `Σ(wᵢ + 3) + 1`. -/
def renderedTotalWidth (ws : List Nat) : Nat := (ws.map (· + 3)).sum + 1

/-- The four recognized style names. -/
def styleNames : List String := ["simple", "grid", "minimal", "none"]

/-- The recognized color names. -/
def colorNames : List String := COLORS.map Prod.fst

/-- The longest field count among a list of rows. -/
def maxFieldCount (rows : List Row) : Nat :=
  rows.foldr (fun r a => max r.length a) 0

/-! ### Concrete configurations and inputs used as test points -/

/-- A viewer with every constructor default (terminal probed at 24×80). -/
def defaultViewer : CSVViewer := CSVViewer.init ',' true 5 none "simple" false none 24 80

/-- Default viewer with the `none` border style. -/
def noneViewer : CSVViewer := CSVViewer.init ',' true 5 none "none" false none 24 80

/-- Default viewer with colors enabled (default color list). -/
def colorViewer : CSVViewer := CSVViewer.init ',' true 5 none "simple" true none 24 80

/-- Default viewer with `max_col_width=2`. -/
def max2Viewer : CSVViewer := CSVViewer.init ',' true 5 (some 2) "simple" false none 24 80

/-- Default viewer with `max_col_width=10`. -/
def max10Viewer : CSVViewer := CSVViewer.init ',' true 5 (some 10) "simple" false none 24 80

/-- Default viewer with `min_col_width=5` and the smaller `max_col_width=3`. -/
def min5max3Viewer : CSVViewer := CSVViewer.init ',' true 5 (some 3) "simple" false none 24 80

/-- Default viewer constructed in a terminal reported as 40 columns wide. -/
def tw40Viewer : CSVViewer := CSVViewer.init ',' true 5 none "simple" false none 24 40

/-- A 101-row source: rows `["0"], ["1"], …, ["100"]`. -/
def rows101 : List Row := (List.range 101).map (fun k => [toString k])

/-- One row of three 42-character fields: natural widths 42+42+42, so the
total rendered width with padding is `3·(42+3)+1 = 136`. -/
def wideRows : List Row := [[hRun 'a' 42, hRun 'b' 42, hRun 'c' 42]]

/-! ### Helper lemmas -/

theorem hRun_length (ch : Char) (n : Nat) : (hRun ch n).length = n :=
  List.length_replicate n ch

theorem ljust_length_of_le {s : String} {w : Nat} (h : s.length ≤ w) :
    (ljust s w).length = w := by
  simp only [ljust, String.length_append]
  show s.length + (List.replicate (w - s.length) ' ').length = w
  simp only [List.length_replicate]
  omega

theorem formatCellPlain_length {cell : String} {w : Nat} (h : cell.length ≤ w) :
    (formatCellPlain cell w).length = w + 2 := by
  simp only [formatCellPlain, String.length_append, ljust_length_of_le h]
  show 1 + w + 1 = w + 2
  omega

theorem joinSep_length (sep : String) :
    ∀ l : List String,
      (joinSep sep l).length = (l.map String.length).sum + sep.length * (l.length - 1)
  | [] => by simp [joinSep]
  | [c] => by simp [joinSep]
  | c :: c2 :: cs => by
    have ih := joinSep_length sep (c2 :: cs)
    simp only [joinSep, String.length_append, ih, List.map_cons, List.sum_cons,
      List.length_cons, Nat.add_sub_cancel]
    rw [Nat.mul_succ]
    omega

theorem rowFits_cons {v : CSVViewer} {cell : String} {cells : List String}
    {w : Nat} {ws : List Nat} (h : rowFits v (cell :: cells) (w :: ws) = true) :
    (applyTrunc v cell).length ≤ w ∧ rowFits v cells ws = true := by
  simpa [rowFits, Bool.and_eq_true, decide_eq_true_eq] using h

theorem rowCells_lengths (v : CSVViewer) (hc : v.use_colors = false)
    (ws : List Nat) : ∀ (row : List String) (i : Nat), rowFits v row ws = true →
      (rowCells v i row ws).map String.length = ws.map (· + 2) := by
  induction ws with
  | nil =>
    intro row i _
    cases row <;> simp [rowCells]
  | cons w ws ih =>
    intro row i hf
    cases row with
    | nil =>
      simp only [rowCells, hc, if_neg Bool.false_ne_true, List.map_cons]
      rw [formatCellPlain_length (by simp), ih [] (i + 1) (by simp [rowFits])]
    | cons cell cells =>
      obtain ⟨h1, h2⟩ := rowFits_cons hf
      simp only [rowCells, hc, if_neg Bool.false_ne_true, List.map_cons]
      rw [formatCellPlain_length h1, ih cells (i + 1) h2]

theorem rowCells_count (v : CSVViewer) (ws : List Nat) :
    ∀ (row : List String) (i : Nat), (rowCells v i row ws).length = ws.length := by
  induction ws with
  | nil => intro row i; cases row <;> simp [rowCells]
  | cons w ws ih =>
    intro row i
    cases row <;> simp [rowCells, ih]

theorem formatRow_length (v : CSVViewer) (row : Row) (ws : List Nat)
    (hc : v.use_colors = false) (hf : rowFits v row ws = true) :
    (formatRow v row ws).length = rowRenderWidth ws := by
  simp only [formatRow, String.length_append, joinSep_length,
    rowCells_lengths v hc ws row 0 hf, rowCells_count]
  show 1 + ((ws.map (· + 2)).sum + 1 * (ws.length - 1)) + 1 = rowRenderWidth ws
  simp only [rowRenderWidth, Nat.one_mul]
  omega

theorem formatSeparator_length (v : CSVViewer) (ws : List Nat) (pos : String)
    (hs : v.border_style ≠ "none")
    (hp : pos = "top" ∨ pos = "middle" ∨ pos = "bottom") :
    (formatSeparator v ws pos).length = rowRenderWidth ws := by
  have hparts : ((ws.map (fun width => hRun (borderChars v.border_style).h (width + 2))).map
      String.length) = ws.map (· + 2) := by
    rw [List.map_map]
    exact List.map_congr_left (fun w _ => hRun_length _ _)
  have hcnt : (ws.map (fun width => hRun (borderChars v.border_style).h (width + 2))).length
      = ws.length := List.length_map _ _
  rcases hp with rfl | rfl | rfl
  · rw [formatSeparator, if_neg hs, if_pos rfl]
    simp only [String.length_append, joinSep_length, hparts, hcnt]
    show 1 + ((ws.map (· + 2)).sum + 1 * (ws.length - 1)) + 1 = rowRenderWidth ws
    simp only [rowRenderWidth, Nat.one_mul]
    omega
  · rw [formatSeparator, if_neg hs, if_neg (by decide), if_pos rfl]
    simp only [String.length_append, joinSep_length, hparts, hcnt]
    show 1 + ((ws.map (· + 2)).sum + 1 * (ws.length - 1)) + 1 = rowRenderWidth ws
    simp only [rowRenderWidth, Nat.one_mul]
    omega
  · rw [formatSeparator, if_neg hs, if_neg (by decide), if_neg (by decide), if_pos rfl]
    simp only [String.length_append, joinSep_length, hparts, hcnt]
    show 1 + ((ws.map (· + 2)).sum + 1 * (ws.length - 1)) + 1 = rowRenderWidth ws
    simp only [rowRenderWidth, Nat.one_mul]
    omega

theorem singleton_data (c : Char) : (String.singleton c).data = [c] := rfl

theorem formatRow_line_data (vc : Char) :
    ∀ cells : List String,
      (String.singleton vc ++ joinSep (String.singleton vc) cells
        ++ String.singleton vc).data = lineChars vc (cells.map String.data)
  | [] => by
    simp [joinSep, lineChars, String.data_append, singleton_data]
  | [c] => by
    simp [joinSep, lineChars, String.data_append, singleton_data]
  | c :: c2 :: cs => by
    have ih := formatRow_line_data vc (c2 :: cs)
    simp only [joinSep, lineChars, String.data_append, singleton_data,
      List.map_cons] at ih ⊢
    simp only [List.cons_append, List.nil_append, List.append_assoc] at ih ⊢
    rw [← ih]

theorem lineChars_get (vc : Char) :
    ∀ (ws : List Nat) (cells : List (List Char)),
      cells.map List.length = ws.map (· + 2) →
      ∀ p ∈ borderPositions ws, (lineChars vc cells)[p]? = some vc := by
  intro ws
  induction ws with
  | nil =>
    intro cells h p hp
    have hc : cells = [] := by cases cells <;> simp_all
    subst hc
    simp only [borderPositions, List.mem_cons, List.mem_singleton] at hp
    rcases hp with rfl | rfl | h0
    · simp [lineChars]
    · simp [lineChars]
    · exact absurd h0 (by simp)
  | cons w ws ih =>
    intro cells h p hp
    cases cells with
    | nil => simp at h
    | cons c cs =>
      simp only [List.map_cons, List.cons.injEq] at h
      obtain ⟨hc, hcs⟩ := h
      cases ws with
      | nil =>
        have hcs0 : cs = [] := by cases cs <;> simp_all
        subst hcs0
        simp only [borderPositions, List.mem_cons, List.mem_singleton] at hp
        rcases hp with rfl | rfl | h0
        · simp [lineChars]
        · show (vc :: (c ++ [vc]))[w + 3]? = some vc
          have h3 : w + 3 = (w + 2) + 1 := by omega
          rw [h3, List.getElem?_cons_succ,
            List.getElem?_append_right (by omega : c.length ≤ w + 2), hc]
          simp
        · exact absurd h0 (by simp)
      | cons w2 ws' =>
        obtain ⟨c2, cs', rfl⟩ : ∃ c2 cs', cs = c2 :: cs' := by
          cases cs with
          | nil => simp at hcs
          | cons a as => exact ⟨a, as, rfl⟩
        simp only [borderPositions, List.mem_cons, List.mem_map] at hp
        rcases hp with rfl | ⟨q, hq, rfl⟩
        · simp [lineChars]
        · show (vc :: (c ++ lineChars vc (c2 :: cs')))[q + (w + 3)]? = some vc
          have h3 : q + (w + 3) = ((w + 2) + q) + 1 := by omega
          rw [h3, List.getElem?_cons_succ,
            List.getElem?_append_right (by omega : c.length ≤ w + 2 + q), hc]
          have : w + 2 + q - (w + 2) = q := by omega
          rw [this]
          exact ih (c2 :: cs') (by simpa using hcs) q hq

theorem formatRow_glyph_at (v : CSVViewer) (row : Row) (ws : List Nat)
    (hc : v.use_colors = false) (hf : rowFits v row ws = true) :
    ∀ p ∈ borderPositions ws,
      (formatRow v row ws).data[p]? = some (borderChars v.border_style).v := by
  intro p hp
  have hdata := formatRow_line_data (borderChars v.border_style).v (rowCells v 0 row ws)
  show (String.singleton (borderChars v.border_style).v
      ++ joinSep (String.singleton (borderChars v.border_style).v) (rowCells v 0 row ws)
      ++ String.singleton (borderChars v.border_style).v).data[p]? = _
  rw [hdata]
  refine lineChars_get _ ws ((rowCells v 0 row ws).map String.data) ?_ p hp
  rw [List.map_map]
  exact List.map_congr_left (fun s _ => rfl) |>.trans
    (rowCells_lengths v hc ws row 0 hf)

theorem rowCells_state_update (v : CSVViewer) (th tw : Nat) (ws : List Nat) :
    ∀ (row : List String) (i : Nat),
      rowCells { v with term_height := th, term_width := tw } i row ws
        = rowCells v i row ws := by
  induction ws with
  | nil => intro row i; cases row <;> rfl
  | cons w ws ih =>
    intro row i
    cases row with
    | nil =>
      show _ :: _ = _ :: _
      rw [ih]
      rfl
    | cons cell cells =>
      show _ :: _ = _ :: _
      rw [ih]
      rfl

theorem formatRow_state_update (v : CSVViewer) (th tw : Nat) (row : List String)
    (ws : List Nat) :
    formatRow { v with term_height := th, term_width := tw } row ws
      = formatRow v row ws := by
  simp only [formatRow]
  rw [rowCells_state_update]

theorem updateWidths_length : ∀ (ws : List Nat) (row : Row),
    (updateWidths ws row).length = max ws.length row.length
  | ws, [] => by cases ws <;> simp [updateWidths]
  | [], cell :: cells => by
    simp [updateWidths, updateWidths_length [] cells]
  | w :: ws, cell :: cells => by
    simp only [updateWidths, List.length_cons, updateWidths_length ws cells]
    omega

theorem previewLoop_eq (n : Nat) :
    ∀ (reader : List Row) (i : Nat) (ws : List Nat) (buf : List Row),
      previewLoop n i reader ws buf =
        ((reader.take (n - i)).foldl updateWidths ws,
         buf ++ reader.take (n - i),
         reader.drop (n - i + 1)) := by
  intro reader
  induction reader with
  | nil => intro i ws buf; simp [previewLoop]
  | cons row rest ih =>
    intro i ws buf
    by_cases hni : n ≤ i
    · have h0 : n - i = 0 := by omega
      simp [previewLoop, hni, h0]
    · have h1 : n - i = (n - (i + 1)) + 1 := by omega
      rw [previewLoop, if_neg hni, ih (i + 1) (updateWidths ws row) (buf ++ [row]), h1]
      simp [List.take_succ_cons, List.drop_succ_cons, List.foldl_cons,
        List.append_assoc]

theorem calc_preview_tail (v : CSVViewer) (reader : List Row) :
    (calcInitialColWidths v reader).2.1 = reader.take 100 ∧
    (calcInitialColWidths v reader).2.2 = reader.drop 101 := by
  simp [calcInitialColWidths, previewLoop_eq]

theorem foldl_updateWidths_length : ∀ (rows : List Row) (ws : List Nat),
    (rows.foldl updateWidths ws).length = max ws.length (maxFieldCount rows)
  | [], ws => by simp [maxFieldCount]
  | r :: rs, ws => by
    simp only [List.foldl_cons, foldl_updateWidths_length rs (updateWidths ws r),
      maxFieldCount, List.foldr_cons, updateWidths_length]
    show max (max ws.length r.length) (maxFieldCount rs)
      = max ws.length (max r.length (maxFieldCount rs))
    omega

theorem lookup_eq_none_of_not_mem_keys (l : List (String × String)) (a : String)
    (h : a ∉ l.map Prod.fst) : l.lookup a = none := by
  induction l with
  | nil => rfl
  | cons p ps ih =>
    simp only [List.map_cons, List.mem_cons, not_or] at h
    obtain ⟨h1, h2⟩ := h
    obtain ⟨k, b⟩ := p
    simp only [List.lookup]
    rw [show (a == k) = false from beq_eq_false_iff_ne.mpr h1]
    exact ih h2

/-! ### The claims -/

set_option maxRecDepth 100000

/-- C1 (code bug witness): on a 101-row source the render is one row short.
The preview loop `for i, row in enumerate(reader): if i >= num_preview_rows:
break; ...` pulls the row at index 100 from the iterator before breaking and
never buffers it, so that row is neither replayed nor streamed: only 100
rows are rendered and the summary reports `Total rows: 100` although the
source held (and the iterator yielded) 101 rows. -/
theorem c1_preview_boundary_row_dropped :
    rows101.length = 101 ∧
    (viewCsv defaultViewer rows101).getLast? = some "\nTotal rows: 100" ∧
    formatRow defaultViewer ["100"] (calcInitialColWidths defaultViewer rows101).1
      ∉ viewCsv defaultViewer rows101 := by
  decide

/-- C2 counterexample: a viewer whose probed terminal is 40 columns wide,
on three columns of natural width 42 (total rendered width
`3·(42+3)+1 = 136`): the plan is not re-derived and its total rendered
width is 136, not at most 41. -/
theorem c2_counterexample :
    tw40Viewer.term_width = 40 ∧
    renderedTotalWidth (calcInitialColWidths tw40Viewer wideRows).1 = 136 ∧
    ¬ renderedTotalWidth (calcInitialColWidths tw40Viewer wideRows).1 ≤ 41 := by
  decide

/-- C2 amended: the code contains no terminal-fit shrink pass at all — the
width plan is the same whatever terminal width was stored at construction,
and in the spec's scenario the total rendered width remains 136 (the
rendered data line indeed spans 136 characters, exceeding the terminal). -/
theorem c2_amended_no_terminal_refit :
    (∀ (v : CSVViewer) (tw : Nat) (reader : List Row),
      calcInitialColWidths { v with term_width := tw } reader
        = calcInitialColWidths v reader) ∧
    renderedTotalWidth (calcInitialColWidths tw40Viewer wideRows).1 = 136 ∧
    (formatRow tw40Viewer (wideRows.headD [])
      (calcInitialColWidths tw40Viewer wideRows).1).length = 136 := by
  refine ⟨fun v tw reader => rfl, by decide, by decide⟩

/-- C3 counterexample: under the fixed plan `[5]` with colors disabled, a
row whose field has 8 characters (as a streaming-tail field unseen during
preview can) renders longer than a row whose field has 1 character: the
padding `f"{cell:<{width}}"` pads but never cuts, and without a configured
`max_col_width` nothing truncates the overlong field. -/
theorem c3_counterexample :
    ¬ ((formatRow defaultViewer [hRun 'a' 8] [5]).length
        = (formatRow defaultViewer ["a"] [5]).length) := by
  decide

/-- C3 amended: for a fixed width plan and colors disabled, all rows whose
fields (after the max-width truncation, when one is configured) are no
longer than their planned column widths render to lines of equal length,
with the style's vertical border glyph at the same character positions in
every such line.  Preview rows always satisfy the fit condition, since the
plan was grown from their lengths; tail rows need not. -/
theorem c3_amended_padding_invariant (v : CSVViewer) (ws : List Nat)
    (r1 r2 : Row) (hc : v.use_colors = false)
    (h1 : rowFits v r1 ws = true) (h2 : rowFits v r2 ws = true) :
    (formatRow v r1 ws).length = (formatRow v r2 ws).length ∧
    ∀ p ∈ borderPositions ws,
      (formatRow v r1 ws).data[p]? = some (borderChars v.border_style).v ∧
      (formatRow v r2 ws).data[p]? = some (borderChars v.border_style).v := by
  refine ⟨by rw [formatRow_length v r1 ws hc h1, formatRow_length v r2 ws hc h2], ?_⟩
  intro p hp
  exact ⟨formatRow_glyph_at v r1 ws hc h1 p hp,
    formatRow_glyph_at v r2 ws hc h2 p hp⟩

/-- C3 witness: the amended invariant evaluated at plan `[5]` on rows
`["abc"]` and `["xy"]`, checking the leading border glyph position. -/
theorem c3_witness :
    (formatRow defaultViewer ["abc"] [5]).length
        = (formatRow defaultViewer ["xy"] [5]).length ∧
    (formatRow defaultViewer ["abc"] [5]).data[0]?
        = some (borderChars defaultViewer.border_style).v ∧
    (formatRow defaultViewer ["xy"] [5]).data[0]?
        = some (borderChars defaultViewer.border_style).v := by
  obtain ⟨hlen, hpos⟩ := c3_amended_padding_invariant defaultViewer [5] ["abc"] ["xy"]
    rfl (by decide) (by decide)
  obtain ⟨ha, hb⟩ := hpos 0 (by decide)
  exact ⟨hlen, ha, hb⟩

/-- C4 counterexample, refuting each universal in turn: for the `none`
style the separator is empty but the row line is not; for a position other
than top/middle/bottom the separator is empty; for a field longer than its
planned width the row line outgrows the separator; with colors enabled the
ANSI escapes lengthen the row line. -/
theorem c4_counterexample :
    (formatSeparator noneViewer [5] "top").length
        ≠ (formatRow noneViewer ["abc"] [5]).length ∧
    (formatSeparator defaultViewer [5] "left").length
        ≠ (formatRow defaultViewer ["abc"] [5]).length ∧
    (formatSeparator defaultViewer [5] "top").length
        ≠ (formatRow defaultViewer [hRun 'a' 8] [5]).length ∧
    (formatSeparator colorViewer [5] "top").length
        ≠ (formatRow colorViewer ["abc"] [5]).length := by
  decide

/-- C4 amended: for every border style other than `none`, every separator
position among top/middle/bottom, colors disabled, and every row whose
(truncated) fields fit the plan, the separator line and the data line have
equal length. -/
theorem c4_amended_alignment (v : CSVViewer) (ws : List Nat) (row : Row)
    (pos : String) (hc : v.use_colors = false) (hs : v.border_style ≠ "none")
    (hp : pos = "top" ∨ pos = "middle" ∨ pos = "bottom")
    (hf : rowFits v row ws = true) :
    (formatSeparator v ws pos).length = (formatRow v row ws).length := by
  rw [formatSeparator_length v ws pos hs hp, formatRow_length v row ws hc hf]

/-- C4 witness: the amended alignment at the default style, plan `[5]`,
row `["abc"]`, top position. -/
theorem c4_witness :
    (formatSeparator defaultViewer [5] "top").length
      = (formatRow defaultViewer ["abc"] [5]).length :=
  c4_amended_alignment defaultViewer [5] ["abc"] "top" rfl (by decide)
    (Or.inl rfl) (by decide)

/-- C5 counterexample: with `max_col_width = 2`, the field `"abcde"`
(length 5 > 2) truncates via the Python slice `cell[:2-3] = cell[:-1]` to
`"abcd" + "..."`, of length 7 — not length 2. -/
theorem c5_counterexample :
    max2Viewer.max_col_width = some 2 ∧
    applyTrunc max2Viewer "abcde" = "abcd..." ∧
    (applyTrunc max2Viewer "abcde").length ≠ 2 := by
  decide

/-- C5 amended: when the configured maximum width is at least 3, a field
longer than the maximum renders as its first `max_width - 3` characters
followed by `...`, of length exactly `max_width`, and a field no longer
than the maximum is unchanged.  (For `max_width < 3` the slice bound goes
negative and the result is longer than the maximum.) -/
theorem c5_amended_truncation (v : CSVViewer) (cell : String) (m : Nat)
    (hm : v.max_col_width = some m) (h3 : 3 ≤ m) :
    (m < cell.length →
      applyTrunc v cell = String.mk (cell.data.take (m - 3)) ++ "..." ∧
      (applyTrunc v cell).length = m) ∧
    (cell.length ≤ m → applyTrunc v cell = cell) := by
  have hgetD : v.max_col_width.getD 0 = m := by rw [hm]; rfl
  have hmt : maxTruthy v.max_col_width = true := by
    rw [hm]
    simp [maxTruthy]
    omega
  constructor
  · intro hlt
    rw [applyTrunc, if_pos ⟨hmt, by rw [hgetD]; exact hlt⟩, hgetD,
      truncateCell, if_neg (by omega), pySliceTo, if_pos (by omega)]
    have htn : ((m : Int) - 3).toNat = m - 3 := by omega
    rw [htn]
    refine ⟨rfl, ?_⟩
    rw [String.length_append]
    show (cell.data.take (m - 3)).length + 3 = m
    rw [List.length_take]
    have hdl : cell.length = cell.data.length := rfl
    omega
  · intro hle
    rw [applyTrunc, if_neg]
    rintro ⟨-, hlt⟩
    rw [hgetD] at hlt
    omega

/-- C5 witness: the amended truncation rule at `max_col_width = 10` on the
12-character field `"abcdefghijkl"`. -/
theorem c5_witness :
    applyTrunc max10Viewer "abcdefghijkl" = "abcdefg..." ∧
    (applyTrunc max10Viewer "abcdefghijkl").length = 10 := by
  obtain ⟨h1, -⟩ := c5_amended_truncation max10Viewer "abcdefghijkl" 10 rfl (by decide)
  obtain ⟨ha, hb⟩ := h1 (by decide)
  exact ⟨by rw [ha]; decide, hb⟩

/-- C6 counterexample: with `min_col_width = 5` and `max_col_width = 3`,
the single column of `"hello world"` is planned at width 3, which is below
`min_col_width` — the max clamp runs after the min clamp and wins. -/
theorem c6_counterexample :
    min5max3Viewer.min_col_width = 5 ∧
    (calcInitialColWidths min5max3Viewer [["hello world"]]).1 = [3] ∧
    ¬ (5 ≤ 3) := by
  decide

/-- C6 amended: the plan's length equals the maximum field count across the
buffered preview rows; every planned width is at least `min_col_width` when
no (truthy) maximum is configured; when a maximum `m` is configured every
planned width is at most `m` and at least `min(min_col_width, m)` (so the
claim's lower bound of `min_col_width` holds only when `min_col_width ≤ m`). -/
theorem c6_amended_plan_bounds (v : CSVViewer) (reader : List Row) :
    (calcInitialColWidths v reader).1.length
        = maxFieldCount (calcInitialColWidths v reader).2.1 ∧
    (maxTruthy v.max_col_width = false →
      ∀ w ∈ (calcInitialColWidths v reader).1, v.min_col_width ≤ w) ∧
    (∀ m, v.max_col_width = some m → maxTruthy v.max_col_width = true →
      ∀ w ∈ (calcInitialColWidths v reader).1,
        w ≤ m ∧ min v.min_col_width m ≤ w) := by
  have hbase := previewLoop_eq 100 reader 0 [] []
  refine ⟨?_, ?_, ?_⟩
  · by_cases hmt : maxTruthy v.max_col_width = true
    · simp [calcInitialColWidths, hbase, hmt, foldl_updateWidths_length,
        maxFieldCount]
    · simp only [Bool.not_eq_true] at hmt
      simp [calcInitialColWidths, hbase, hmt, foldl_updateWidths_length,
        maxFieldCount]
  · intro hmt w hw
    simp only [calcInitialColWidths, hbase, hmt, Bool.false_eq_true, if_neg,
      ite_false, List.mem_map] at hw
    obtain ⟨w0, -, rfl⟩ := hw
    exact Nat.le_max_left _ _
  · intro m hm hmt w hw
    simp only [calcInitialColWidths, hbase, hmt, ite_true, List.mem_map] at hw
    obtain ⟨w1, hw1, rfl⟩ := hw
    obtain ⟨w0, -, rfl⟩ := hw1
    have hgetD : v.max_col_width.getD 0 = m := by rw [hm]; rfl
    rw [hgetD]
    constructor
    · exact Nat.min_le_right _ _
    · exact min_le_min (Nat.le_max_left _ _) (Nat.le_refl m)

/-- C6 witness: the amended bounds at `min_col_width = 5`,
`max_col_width = 3` on a preview of one two-field row; the planned widths
are `[3, 3]`, of length the max field count, and width 3 obeys the clamped
bounds. -/
theorem c6_witness :
    (calcInitialColWidths min5max3Viewer [["hello world", "hi"]]).1.length
        = maxFieldCount (calcInitialColWidths min5max3Viewer [["hello world", "hi"]]).2.1 ∧
    (3 ≤ 3 ∧ min 5 3 ≤ 3) :=
  ⟨(c6_amended_plan_bounds min5max3Viewer [["hello world", "hi"]]).1,
   (c6_amended_plan_bounds min5max3Viewer [["hello world", "hi"]]).2.2 3 rfl rfl 3
     (by decide)⟩

/-- C7: an unrecognized border style name resolves to the `simple` glyph
set and an unrecognized color name resolves to the empty escape string;
both lookups are total functions, so neither configuration error can fail
the render. -/
theorem c7_config_fallbacks :
    (∀ s : String, s ∉ styleNames → borderChars s = borderChars "simple") ∧
    (∀ n : String, n ∉ colorNames → lookupColor n = "") := by
  constructor
  · intro s hs
    simp only [styleNames, List.mem_cons, List.not_mem_nil, or_false,
      not_or] at hs
    obtain ⟨h1, h2, h3, h4⟩ := hs
    rw [borderChars, if_neg h1, if_neg h2, if_neg h3, if_neg h4]
    rfl
  · intro n hn
    rw [lookupColor, lookup_eq_none_of_not_mem_keys COLORS n hn]
    rfl

/-- C7 witness: the fallbacks at the unrecognized names `"fancy"` and
`"sparkle"`. -/
theorem c7_witness :
    borderChars "fancy" = borderChars "simple" ∧ lookupColor "sparkle" = "" :=
  ⟨c7_config_fallbacks.1 "fancy" (by decide),
   c7_config_fallbacks.2 "sparkle" (by decide)⟩

/-- C8: an empty source yields an empty width plan and no preview rows,
and the controller still emits output ending in the summary line
`Total rows: 0`; in particular with the `simple` style the output is the
two-character border shell `++` twice followed by the summary. -/
theorem c8_empty_source (v : CSVViewer) :
    (calcInitialColWidths v []).1 = [] ∧
    (calcInitialColWidths v []).2.1 = [] ∧
    (viewCsv v []).getLast? = some "\nTotal rows: 0" ∧
    (v.border_style = "simple" →
      viewCsv v [] = ["++", "++", "\nTotal rows: 0"]) := by
  have hcalc : calcInitialColWidths v [] = ([], [], []) := by
    simp [calcInitialColWidths, previewLoop]
  refine ⟨by rw [hcalc], by rw [hcalc], ?_, ?_⟩
  · simp only [viewCsv, hcalc]
    rw [List.getLast?_concat]
    rfl
  · intro hs
    simp only [viewCsv, hcalc]
    simp [hs, formatSeparator, borderChars, joinSep]
    exact ⟨rfl, rfl, rfl⟩

/-- C8 witness: the empty-source shell for the all-defaults viewer. -/
theorem c8_witness :
    viewCsv defaultViewer [] = ["++", "++", "\nTotal rows: 0"] :=
  (c8_empty_source defaultViewer).2.2.2 rfl

/-- C9: a viewer constructed with an absent or empty color list stores the
default two-color list `['bg_cyan', 'bg_white']`; the stored color plan is
never empty, so the round-robin `col_index % len(colors)` in `_get_color`
never divides by zero, for any column index. -/
theorem c9_color_plan_never_empty (delim : Char) (hdr : Bool) (mi : Nat)
    (ma : Option Nat) (bs : String) (uc : Bool) (arg : Option (List String))
    (th tw i : Nat) :
    (CSVViewer.init delim hdr mi ma bs uc arg th tw).column_colors ≠ [] ∧
    ((arg = none ∨ arg = some []) →
      (CSVViewer.init delim hdr mi ma bs uc arg th tw).column_colors
        = ["bg_cyan", "bg_white"]) ∧
    getColorRes uc (CSVViewer.init delim hdr mi ma bs uc arg th tw).column_colors i
      ≠ none := by
  have hne : initColumnColors arg ≠ [] := by
    match arg with
    | none => simp [initColumnColors, DEFAULT_COLUMN_COLORS]
    | some [] => simp [initColumnColors, DEFAULT_COLUMN_COLORS]
    | some (c :: cs) => simp [initColumnColors]
  refine ⟨hne, ?_, ?_⟩
  · rintro (rfl | rfl) <;> rfl
  · show getColorRes uc (initColumnColors arg) i ≠ none
    rw [getColorRes]
    by_cases huc : uc = false
    · rw [if_pos huc]
      simp
    · rw [if_neg huc,
        if_neg (show ¬ (initColumnColors arg).length = 0 from by
          simpa [List.length_eq_zero] using hne)]
      simp

/-- C9 witness: construction with an explicitly empty color list and colors
enabled stores the default plan, and color selection at column 7 succeeds. -/
theorem c9_witness :
    (CSVViewer.init ',' true 5 none "simple" true (some []) 24 80).column_colors
      = ["bg_cyan", "bg_white"] ∧
    getColorRes true
      (CSVViewer.init ',' true 5 none "simple" true (some []) 24 80).column_colors 7
      ≠ none :=
  ⟨(c9_color_plan_never_empty ',' true 5 none "simple" true (some []) 24 80 7).2.1
      (Or.inr rfl),
   (c9_color_plan_never_empty ',' true 5 none "simple" true (some []) 24 80 7).2.2⟩

/-- C10: the rendered output is a deterministic function of the
configuration and the row source alone: the terminal dimensions stored at
construction never influence width planning or row formatting, so two
renders of the same rows under the same configuration agree even when the
probed terminal sizes differ. -/
theorem c10_terminal_size_independence (v : CSVViewer) (th tw : Nat)
    (rows : List Row) :
    viewCsv { v with term_height := th, term_width := tw } rows
      = viewCsv v rows := by
  simp only [viewCsv,
    show calcInitialColWidths { v with term_height := th, term_width := tw } rows
        = calcInitialColWidths v rows from rfl,
    formatRow_state_update,
    show ∀ ws pos,
        formatSeparator { v with term_height := th, term_width := tw } ws pos
          = formatSeparator v ws pos from fun _ _ => rfl]
